import Mathlib

/-!
Verification of the merkle-tree-file-system scaffold.

The repository's single source file, `src/merkle/src/lib.rs`, defines a
filesystem struct `NullFS` with an empty `impl Filesystem for NullFS {}`
block and a `main` that reads the mountpoint from the argument at index 1
(`env::args_os().nth(1).unwrap()`) and calls
`fuser::mount2(NullFS, mountpoint, &[MountOption::AutoUnmount]).unwrap()`.

The first half of this file embeds that program: the userspace filesystem
framework's operation table (the `fuser::Filesystem` trait, whose methods
all have default bodies), the mount options, and the control flow of
`main` including the two `unwrap` panic points.

The second half models the filesystem engine that the specification
describes (inode table, handle table, read/write over a backing store),
which has no code in `src/`; those definitions are marked
`Modelled from the spec:` in their doc comments.
-/

set_option autoImplicit false

namespace MerkleFS

/-- The request kinds delivered by the userspace filesystem framework:
one constructor per method of the `fuser::Filesystem` trait
(`openf` stands for the trait method `open`, which is a Lean keyword). -/
inductive RequestKind
  | init | destroy | lookup | forget | getattr | setattr | readlink
  | mknod | mkdir | unlink | rmdir | symlink | rename | link
  | openf | read | write | flush | release | fsync
  | opendir | readdir | releasedir | fsyncdir | statfs
  | setxattr | getxattr | listxattr | removexattr | access
  | create | getlk | setlk | bmap | ioctl | fallocate | lseek
  | copyFileRange
deriving Repr, DecidableEq

/-- The replies a handler can produce, abstracted to the shapes the
framework's default method bodies use: an ENOSYS error reply, a bare ok
reply, an `opened(fh, flags)` reply, a `statfs(...)` reply, and no reply
at all (for `forget`/`destroy`, which send nothing). -/
inductive Reply
  | enosys
  | okReply
  | opened (fh flags : Nat)
  | statfsReply (blocks bfree bavail files ffree bsize namelen frsize : Nat)
  | noReply
deriving Repr, DecidableEq

/-- Embedding of the `fuser::Filesystem` trait: one handler slot per
request kind, each defaulted to the reply the trait's default method body
produces (most default bodies reply ENOSYS; `init` succeeds, `open` and
`opendir` reply `opened(0, 0)`, `release`/`releasedir` reply ok,
`statfs` replies zeros with bsize 512 and namelen 255, and
`forget`/`destroy` send no reply). An `impl` block that overrides nothing
corresponds to the structure literal `{}`. -/
structure Filesystem where
  init : Reply := .okReply
  destroy : Reply := .noReply
  lookup : Reply := .enosys
  forget : Reply := .noReply
  getattr : Reply := .enosys
  setattr : Reply := .enosys
  readlink : Reply := .enosys
  mknod : Reply := .enosys
  mkdir : Reply := .enosys
  unlink : Reply := .enosys
  rmdir : Reply := .enosys
  symlink : Reply := .enosys
  rename : Reply := .enosys
  link : Reply := .enosys
  openf : Reply := .opened 0 0
  read : Reply := .enosys
  write : Reply := .enosys
  flush : Reply := .enosys
  release : Reply := .okReply
  fsync : Reply := .enosys
  opendir : Reply := .opened 0 0
  readdir : Reply := .enosys
  releasedir : Reply := .okReply
  fsyncdir : Reply := .enosys
  statfs : Reply := .statfsReply 0 0 0 0 0 512 255 0
  setxattr : Reply := .enosys
  getxattr : Reply := .enosys
  listxattr : Reply := .enosys
  removexattr : Reply := .enosys
  access : Reply := .enosys
  create : Reply := .enosys
  getlk : Reply := .enosys
  setlk : Reply := .enosys
  bmap : Reply := .enosys
  ioctl : Reply := .enosys
  fallocate : Reply := .enosys
  lseek : Reply := .enosys
  copyFileRange : Reply := .enosys
deriving Repr, DecidableEq

/-- `struct NullFS; impl Filesystem for NullFS {}` — the impl block is
empty, so every handler slot keeps its trait default. -/
def NullFS : Filesystem := {}

/-- Route a request kind to the registered implementation's handler slot
(the framework's dispatch of a decoded kernel request). -/
def dispatch (fs : Filesystem) : RequestKind → Reply
  | .init => fs.init
  | .destroy => fs.destroy
  | .lookup => fs.lookup
  | .forget => fs.forget
  | .getattr => fs.getattr
  | .setattr => fs.setattr
  | .readlink => fs.readlink
  | .mknod => fs.mknod
  | .mkdir => fs.mkdir
  | .unlink => fs.unlink
  | .rmdir => fs.rmdir
  | .symlink => fs.symlink
  | .rename => fs.rename
  | .link => fs.link
  | .openf => fs.openf
  | .read => fs.read
  | .write => fs.write
  | .flush => fs.flush
  | .release => fs.release
  | .fsync => fs.fsync
  | .opendir => fs.opendir
  | .readdir => fs.readdir
  | .releasedir => fs.releasedir
  | .fsyncdir => fs.fsyncdir
  | .statfs => fs.statfs
  | .setxattr => fs.setxattr
  | .getxattr => fs.getxattr
  | .listxattr => fs.listxattr
  | .removexattr => fs.removexattr
  | .access => fs.access
  | .create => fs.create
  | .getlk => fs.getlk
  | .setlk => fs.setlk
  | .bmap => fs.bmap
  | .ioctl => fs.ioctl
  | .fallocate => fs.fallocate
  | .lseek => fs.lseek
  | .copyFileRange => fs.copyFileRange

/-- The framework's default reply for each request kind, written out
independently of the `Filesystem` structure so that `NullFS` can be
checked against it slot by slot. -/
def frameworkDefaultReply : RequestKind → Reply
  | .init => .okReply
  | .destroy => .noReply
  | .lookup => .enosys
  | .forget => .noReply
  | .getattr => .enosys
  | .setattr => .enosys
  | .readlink => .enosys
  | .mknod => .enosys
  | .mkdir => .enosys
  | .unlink => .enosys
  | .rmdir => .enosys
  | .symlink => .enosys
  | .rename => .enosys
  | .link => .enosys
  | .openf => .opened 0 0
  | .read => .enosys
  | .write => .enosys
  | .flush => .enosys
  | .release => .okReply
  | .fsync => .enosys
  | .opendir => .opened 0 0
  | .readdir => .enosys
  | .releasedir => .okReply
  | .fsyncdir => .enosys
  | .statfs => .statfsReply 0 0 0 0 0 512 255 0
  | .setxattr => .enosys
  | .getxattr => .enosys
  | .listxattr => .enosys
  | .removexattr => .enosys
  | .access => .enosys
  | .create => .enosys
  | .getlk => .enosys
  | .setlk => .enosys
  | .bmap => .enosys
  | .ioctl => .enosys
  | .fallocate => .enosys
  | .lseek => .enosys
  | .copyFileRange => .enosys

/-- The mount options of the framework that the specification names
(`fuser::MountOption` variants). -/
inductive MountOption
  | AutoUnmount
  | AllowOther
  | RO
  | DefaultPermissions
deriving Repr, DecidableEq

/-- How the process terminates: a normal return from `main` (exit code 0)
or a Rust panic (abnormal termination, non-zero exit code). -/
inductive ExitStatus
  | exitZero
  | panicked
deriving Repr, DecidableEq

/-- Whether the exit status carries exit code 0. -/
def ExitStatus.isZero : ExitStatus → Bool
  | .exitZero => true
  | .panicked => false

/-- What the environment does with the mount: either the mount itself
fails (before any request is delivered), or the mount succeeds, a
sequence of requests is served, and the filesystem is cleanly unmounted. -/
inductive MountOutcome
  | failure
  | served (reqs : List RequestKind)
deriving Repr, DecidableEq

/-- The inputs `main` hands to `fuser::mount2`: the filesystem value, the
mountpoint, and the option slice. -/
structure MountCall where
  fs : Filesystem
  mountpoint : String
  options : List MountOption
deriving Repr, DecidableEq

/-- Embedding of `fuser::mount2`: on mount failure it returns an error
having served nothing; on success it serves each delivered request
through `dispatch` and returns ok on clean unmount. -/
def mount2 (fs : Filesystem) (mp : String) (opts : List MountOption)
    (outcome : MountOutcome) : Except Unit Unit × List (RequestKind × Reply) :=
  match outcome with
  | .failure => (.error (), [])
  | .served reqs => (.ok (), reqs.map fun k => (k, dispatch fs k))

/-- Observable result of one run of `main`: the mount call issued (none if
`main` panicked before reaching `mount2`), the request/reply pairs served,
and the final exit status. -/
structure MainResult where
  mountCall : Option MountCall
  served : List (RequestKind × Reply)
  exit : ExitStatus
deriving Repr, DecidableEq

/-- Embedding of `main`: `env::args_os().nth(1).unwrap()` panics when the
argument at index 1 is absent; otherwise
`fuser::mount2(NullFS, mountpoint, &[MountOption::AutoUnmount]).unwrap()`
panics on a mount error and returns normally (exit code 0) on ok. -/
def mainRun (args : List String) (outcome : MountOutcome) : MainResult :=
  match args[1]? with
  | none => { mountCall := none, served := [], exit := .panicked }
  | some mp =>
    let call : MountCall := { fs := NullFS, mountpoint := mp, options := [.AutoUnmount] }
    match mount2 NullFS mp [.AutoUnmount] outcome with
    | (.error _, served) => { mountCall := some call, served := served, exit := .panicked }
    | (.ok _, served) => { mountCall := some call, served := served, exit := .exitZero }

/-- A mount option is selectable when some invocation of the program
passes it in the option list of its mount call. -/
def optionSelectable (o : MountOption) : Prop :=
  ∃ args outcome c, (mainRun args outcome).mountCall = some c ∧ o ∈ c.options

theorem mainRun_mountCall_options (args : List String) (outcome : MountOutcome)
    (c : MountCall) (h : (mainRun args outcome).mountCall = some c) :
    c.options = [MountOption.AutoUnmount] := by
  unfold mainRun at h
  cases hargs : args[1]? with
  | none => rw [hargs] at h; simp at h
  | some mp =>
    rw [hargs] at h
    cases outcome with
    | failure => simp [mount2] at h; simp [← h]
    | served reqs => simp [mount2] at h; simp [← h]

/-- C1: the program registers a filesystem implementation that overrides
no operation handlers — for every request kind, `NullFS`'s reply is the
framework's default reply. -/
theorem nullfs_answers_nothing :
    ∀ k : RequestKind, dispatch NullFS k = frameworkDefaultReply k := by
  intro k; cases k <;> rfl

/-- C2: with a mountpoint argument present, a failed mount makes `main`
panic (non-zero exit) with no request served, and a clean unmount after
serving any request sequence makes `main` return with exit code 0. -/
theorem main_exit_discipline (args : List String) (mp : String)
    (h : args[1]? = some mp) :
    (mainRun args .failure).exit.isZero = false ∧
    (mainRun args .failure).served = [] ∧
    ∀ reqs : List RequestKind,
      (mainRun args (.served reqs)).exit.isZero = true := by
  refine ⟨?_, ?_, ?_⟩ <;> simp [mainRun, mount2, h, ExitStatus.isZero]

/-- Witness for C2's theorem at `args = ["merkle", "/mnt"]`. -/
theorem main_exit_discipline_witness :
    (["merkle", "/mnt"] : List String)[1]? = some "/mnt" ∧
    (mainRun ["merkle", "/mnt"] .failure).exit.isZero = false ∧
    (mainRun ["merkle", "/mnt"] .failure).served = [] ∧
    ∀ reqs : List RequestKind,
      (mainRun ["merkle", "/mnt"] (.served reqs)).exit.isZero = true :=
  ⟨rfl, main_exit_discipline ["merkle", "/mnt"] "/mnt" rfl⟩

/-- C3: the argument at index 1 is taken as the mountpoint and passed
unchanged as the mount target, together with `NullFS` and
`[AutoUnmount]`, whatever the mount outcome. -/
theorem main_mountpoint_passed_unchanged (args : List String) (mp : String)
    (outcome : MountOutcome) (h : args[1]? = some mp) :
    (mainRun args outcome).mountCall =
      some { fs := NullFS, mountpoint := mp, options := [.AutoUnmount] } := by
  cases outcome <;> simp [mainRun, mount2, h]

/-- Witness for C3's theorem at `args = ["merkle", "/mnt"]`. -/
theorem main_mountpoint_passed_unchanged_witness :
    (["merkle", "/mnt"] : List String)[1]? = some "/mnt" ∧
    (mainRun ["merkle", "/mnt"] .failure).mountCall =
      some { fs := NullFS, mountpoint := "/mnt", options := [.AutoUnmount] } :=
  ⟨rfl, main_mountpoint_passed_unchanged ["merkle", "/mnt"] "/mnt" .failure rfl⟩

/-- C4 counterexample: `read-only`, `allow-other` and
`default-permissions` can never be selected — no invocation passes them
to the mount — while `auto-unmount` is always passed; the claim that each
of the four options can be selected is false. -/
theorem mount_options_not_selectable :
    ¬ optionSelectable .RO ∧ ¬ optionSelectable .AllowOther ∧
    ¬ optionSelectable .DefaultPermissions ∧ optionSelectable .AutoUnmount := by
  refine ⟨?_, ?_, ?_, ?_⟩
  · rintro ⟨args, outcome, c, hc, hm⟩
    rw [mainRun_mountCall_options args outcome c hc] at hm
    simp at hm
  · rintro ⟨args, outcome, c, hc, hm⟩
    rw [mainRun_mountCall_options args outcome c hc] at hm
    simp at hm
  · rintro ⟨args, outcome, c, hc, hm⟩
    rw [mainRun_mountCall_options args outcome c hc] at hm
    simp at hm
  · exact ⟨["merkle", "/mnt"], .failure,
      { fs := NullFS, mountpoint := "/mnt", options := [.AutoUnmount] },
      by simp [mainRun, mount2], by simp⟩

/-- C4 (amended): every mount call the program issues carries exactly the
option list `[AutoUnmount]`; `allow-other`, `read-only` and
`default-permissions` are never passed. -/
theorem mount_options_always_autounmount (args : List String)
    (outcome : MountOutcome) (c : MountCall)
    (h : (mainRun args outcome).mountCall = some c) :
    c.options = [MountOption.AutoUnmount] ∧
    MountOption.RO ∉ c.options ∧ MountOption.AllowOther ∉ c.options ∧
    MountOption.DefaultPermissions ∉ c.options := by
  have ho := mainRun_mountCall_options args outcome c h
  rw [ho]
  refine ⟨rfl, ?_, ?_, ?_⟩ <;> simp

/-- Witness for C4's amended theorem at `args = ["merkle", "/mnt"]`. -/
theorem mount_options_always_autounmount_witness :
    (mainRun ["merkle", "/mnt"] .failure).mountCall =
      some { fs := NullFS, mountpoint := "/mnt", options := [.AutoUnmount] } ∧
    ({ fs := NullFS, mountpoint := "/mnt",
       options := [.AutoUnmount] } : MountCall).options =
      [MountOption.AutoUnmount] :=
  ⟨by simp [mainRun, mount2],
   (mount_options_always_autounmount ["merkle", "/mnt"] .failure _
     (by simp [mainRun, mount2])).1⟩

/-- C9: with no argument at index 1 (argument list of length at most one),
`main` panics on the `unwrap` of the missing argument: abnormal
termination, and no mount call is ever issued. -/
theorem main_panics_without_mountpoint (args : List String)
    (outcome : MountOutcome) (h : args.length ≤ 1) :
    mainRun args outcome =
      { mountCall := none, served := [], exit := .panicked } := by
  have hn : args[1]? = none := by
    rw [List.getElem?_eq_none_iff]; exact h
  simp [mainRun, hn]

/-- Witness for C9's theorem at `args = ["merkle"]`. -/
theorem main_panics_without_mountpoint_witness :
    (["merkle"] : List String).length ≤ 1 ∧
    mainRun ["merkle"] .failure =
      { mountCall := none, served := [], exit := .panicked } :=
  ⟨by decide, main_panics_without_mountpoint ["merkle"] .failure (by decide)⟩

/-- C10: `main`'s behavior depends only on the argument at index 1 — two
invocations agreeing there produce identical results under every mount
outcome, and any mount call issued carries the same `NullFS` value and
exactly the option list `[AutoUnmount]`. -/
theorem main_depends_only_on_arg1 (args1 args2 : List String)
    (outcome : MountOutcome) (h : args1[1]? = args2[1]?) :
    mainRun args1 outcome = mainRun args2 outcome ∧
    ∀ c : MountCall, (mainRun args1 outcome).mountCall = some c →
      c.fs = NullFS ∧ c.options = [MountOption.AutoUnmount] := by
  constructor
  · unfold mainRun; rw [h]
  · intro c hc
    refine ⟨?_, mainRun_mountCall_options args1 outcome c hc⟩
    unfold mainRun at hc
    cases hargs : args1[1]? with
    | none => rw [hargs] at hc; simp at hc
    | some mp =>
      rw [hargs] at hc
      cases outcome with
      | failure => simp [mount2] at hc; simp [← hc]
      | served reqs => simp [mount2] at hc; simp [← hc]

/-- Witness for C10's theorem: `["merkle", "/mnt"]` and
`["merkle", "/mnt", "extra"]` agree at index 1 and give equal results. -/
theorem main_depends_only_on_arg1_witness :
    (["merkle", "/mnt"] : List String)[1]? =
      (["merkle", "/mnt", "extra"] : List String)[1]? ∧
    mainRun ["merkle", "/mnt"] .failure =
      mainRun ["merkle", "/mnt", "extra"] .failure :=
  ⟨rfl, (main_depends_only_on_arg1 ["merkle", "/mnt"]
    ["merkle", "/mnt", "extra"] .failure rfl).1⟩

end MerkleFS

namespace Core

/-! The specification's CORE engine (inode table, handle table,
dispatcher operations over a backing store adapter) has no code under
`src/`; the definitions below are modelled from the spec's words. -/

/-- Look up a key in an association list (first binding wins). -/
def aget {α : Type} (k : Nat) : List (Nat × α) → Option α
  | [] => none
  | p :: t => if p.1 = k then some p.2 else aget k t

/-- Remove every binding of a key from an association list. -/
def adel {α : Type} (k : Nat) : List (Nat × α) → List (Nat × α)
  | [] => []
  | p :: t => if p.1 = k then adel k t else p :: adel k t

/-- Bind a key to a value, replacing any previous binding. -/
def aset {α : Type} (k : Nat) (v : α) (m : List (Nat × α)) : List (Nat × α) :=
  (k, v) :: adel k m

theorem aget_adel {α : Type} (k k' : Nat) (m : List (Nat × α)) :
    aget k (adel k' m) = if k = k' then none else aget k m := by
  induction m with
  | nil => simp [aget, adel]
  | cons p t ih =>
    by_cases hp : p.1 = k'
    · by_cases hk : k = k'
      · subst hk; simp [aget, adel, hp, ih]
      · have hpk : p.1 ≠ k := by rw [hp]; exact fun h => hk h.symm
        have hk2 : k' ≠ k := fun h => hk h.symm
        simp [aget, adel, hp, hk, ih, hpk, hk2]
    · by_cases hpk : p.1 = k
      · have hk : k ≠ k' := fun h => hp (hpk.trans h)
        simp [aget, adel, hp, hpk, hk]
      · simp [aget, adel, hp, hpk, ih]

theorem aget_aset {α : Type} (k k' : Nat) (v : α) (m : List (Nat × α)) :
    aget k (aset k' v m) = if k = k' then some v else aget k m := by
  by_cases hk : k = k'
  · simp [aset, aget, hk]
  · have : k' ≠ k := fun h => hk h.symm
    simp [aset, aget, this, hk, aget_adel]

theorem aget_mem {α : Type} {k : Nat} {v : α} {m : List (Nat × α)} :
    aget k m = some v → (k, v) ∈ m := by
  induction m with
  | nil => intro h; simp [aget] at h
  | cons p t ih =>
    intro h
    by_cases hp : p.1 = k
    · simp [aget, hp] at h
      rw [List.mem_cons]
      left
      cases p
      simp_all
    · simp [aget, hp] at h
      exact List.mem_cons_of_mem _ (ih h)

/-- Modelled from the spec: the kind of a filesystem object. -/
inductive IKind
  | file
  | dir
deriving Repr, DecidableEq

/-- Modelled from the spec: an Inode — kind, byte content (its length is
the size attribute), link count, and generation number. -/
structure Inode where
  kind : IKind
  content : List Nat
  nlink : Nat
  generation : Nat
deriving Repr, DecidableEq

/-- Modelled from the spec: a Handle — owning inode identifier, open
flags, current offset. -/
structure Handle where
  ino : Nat
  flags : Nat
  offset : Nat
deriving Repr, DecidableEq

/-- Modelled from the spec: the engine state — inode table, directory
entries `(parent, name, child)`, handle table, and the next fresh inode
and handle identifiers (identifiers are never reused while referenced). -/
structure FsState where
  inodes : List (Nat × Inode)
  dirents : List (Nat × String × Nat)
  handles : List (Nat × Handle)
  nextIno : Nat
  nextFh : Nat
deriving Repr, DecidableEq

/-- Modelled from the spec: the error taxonomy the dispatcher maps to
protocol error codes. -/
inductive FsErr
  | NotFound
  | AlreadyExists
  | NotADirectory
  | StaleHandle
  | IOError
deriving Repr, DecidableEq

/-- Result of one dispatched operation: the state after it, its reply,
and how many backing-store calls it issued. -/
structure OpOut (α : Type) where
  state : FsState
  result : Except FsErr α
  bsCalls : Nat
deriving Repr

/-- Look up a directory entry by parent and name. -/
def dget (p : Nat) (n : String) : List (Nat × String × Nat) → Option Nat
  | [] => none
  | e :: t => if e.1 = p ∧ e.2.1 = n then some e.2.2 else dget p n t

/-- Remove a directory entry by parent and name. -/
def ddel (p : Nat) (n : String) : List (Nat × String × Nat) → List (Nat × String × Nat)
  | [] => []
  | e :: t => if e.1 = p ∧ e.2.1 = n then ddel p n t else e :: ddel p n t

/-- True when no open handle references the given inode identifier. -/
def noHandleRefs (handles : List (Nat × Handle)) (ino : Nat) : Bool :=
  handles.all fun p => p.2.ino != ino

/-- Modelled from the spec: overwrite the bytes of `c` starting at `off`
with `b`, zero-filling any gap and extending the file when
`off + b.length` exceeds the old size. -/
def writeAt (c : List Nat) (off : Nat) (b : List Nat) : List Nat :=
  (c.take off ++ List.replicate (off - c.length) 0) ++ (b ++ c.drop (off + b.length))

theorem drop_append_exact {α : Type} (l1 l2 : List α) (n : Nat) (h : l1.length = n) :
    (l1 ++ l2).drop n = l2 := by
  subst h
  induction l1 with
  | nil => simp
  | cons a t ih => simpa using ih

theorem take_append_exact {α : Type} (l1 l2 : List α) (n : Nat) (h : l1.length = n) :
    (l1 ++ l2).take n = l1 := by
  subst h
  induction l1 with
  | nil => simp
  | cons a t ih => simpa using ih

theorem writeAt_pad_length (c : List Nat) (off : Nat) :
    (c.take off ++ List.replicate (off - c.length) 0).length = off := by
  simp [List.length_append, List.length_take, List.length_replicate]
  rcases Nat.le_total off c.length with h | h
  · rw [Nat.min_eq_left h]; omega
  · rw [Nat.min_eq_right h]; omega

theorem writeAt_read_back (c : List Nat) (off : Nat) (b : List Nat) :
    ((writeAt c off b).drop off).take b.length = b := by
  unfold writeAt
  rw [drop_append_exact _ _ _ (writeAt_pad_length c off),
    take_append_exact _ _ _ rfl]

/-- Modelled from the spec: read up to `len` bytes of `c` from `off`
(short reads at end-of-file, empty past end-of-file). -/
def readBytes (c : List Nat) (off len : Nat) : List Nat :=
  (c.drop off).take len

/-- Modelled from the spec: `create(parent, name)` — allocate a fresh
file inode with link count 1 and insert the directory entry; fails on a
missing or non-directory parent or an existing name, leaving the state
unchanged. Touches no backing store. -/
def createOp (s : FsState) (parent : Nat) (name : String) : OpOut Nat :=
  match aget parent s.inodes with
  | none => ⟨s, .error .NotFound, 0⟩
  | some pI =>
    if pI.kind = .dir then
      match dget parent name s.dirents with
      | some _ => ⟨s, .error .AlreadyExists, 0⟩
      | none =>
        ⟨{ s with
            inodes := aset s.nextIno ⟨.file, [], 1, 0⟩ s.inodes
            dirents := (parent, name, s.nextIno) :: s.dirents
            nextIno := s.nextIno + 1 },
          .ok s.nextIno, 0⟩
    else ⟨s, .error .NotADirectory, 0⟩

/-- Modelled from the spec: `open(inode, flags)` — allocate a Handle for
a live inode; a dead identifier is rejected as stale and creates no
state. -/
def openOp (s : FsState) (ino flags : Nat) : OpOut Nat :=
  match aget ino s.inodes with
  | none => ⟨s, .error .StaleHandle, 0⟩
  | some _ =>
    ⟨{ s with handles := aset s.nextFh ⟨ino, flags, 0⟩ s.handles, nextFh := s.nextFh + 1 },
      .ok s.nextFh, 0⟩

/-- Modelled from the spec: `release(handle)` — destroy the Handle; if
the inode's link count is zero and no remaining handle references it,
the deferred removal of the inode happens now. -/
def releaseOp (s : FsState) (fh : Nat) : OpOut Unit :=
  match aget fh s.handles with
  | none => ⟨s, .error .StaleHandle, 0⟩
  | some h =>
    match aget h.ino s.inodes with
    | none => ⟨{ s with handles := adel fh s.handles }, .ok (), 0⟩
    | some i =>
      if i.nlink = 0 ∧ noHandleRefs (adel fh s.handles) h.ino then
        ⟨{ s with
            handles := adel fh s.handles
            inodes := adel h.ino s.inodes },
          .ok (), 0⟩
      else ⟨{ s with handles := adel fh s.handles }, .ok (), 0⟩

/-- Modelled from the spec: `unlink(parent, name)` — remove the
directory entry and decrement the child's link count; the inode is freed
only when the count reaches zero and no open Handle references it,
otherwise removal is deferred to the last `release`. -/
def unlinkOp (s : FsState) (parent : Nat) (name : String) : OpOut Unit :=
  match dget parent name s.dirents with
  | none => ⟨s, .error .NotFound, 0⟩
  | some child =>
    match aget child s.inodes with
    | none => ⟨s, .error .StaleHandle, 0⟩
    | some cI =>
      if cI.nlink - 1 = 0 ∧ noHandleRefs s.handles child then
        ⟨{ s with
            dirents := ddel parent name s.dirents
            inodes := adel child s.inodes },
          .ok (), 0⟩
      else
        ⟨{ s with
            dirents := ddel parent name s.dirents
            inodes := aset child { cI with nlink := cI.nlink - 1 } s.inodes },
          .ok (), 0⟩

/-- Modelled from the spec: `write(handle, offset, bytes)` — resolve the
handle and its inode, then issue exactly one backing-store write call
(`io` is that call's outcome). On success the content is overwritten at
the offset (extending the file) and the byte count is returned; on a
backing-store failure the IOError is surfaced, the call is not retried,
and the state is left unchanged. -/
def writeOp (io : Bool) (s : FsState) (fh off : Nat) (bytes : List Nat) : OpOut Nat :=
  match aget fh s.handles with
  | none => ⟨s, .error .StaleHandle, 0⟩
  | some h =>
    match aget h.ino s.inodes with
    | none => ⟨s, .error .StaleHandle, 0⟩
    | some i =>
      if io then
        ⟨{ s with inodes := aset h.ino { i with content := writeAt i.content off bytes } s.inodes },
          .ok bytes.length, 1⟩
      else ⟨s, .error .IOError, 1⟩

/-- Modelled from the spec: `read(handle, offset, length)` — resolve the
handle and its inode, then issue exactly one backing-store read call
(`io` is that call's outcome). On success up to `length` bytes from
`offset` are returned; on a backing-store failure the IOError is
surfaced, the call is not retried, and the state is left unchanged. -/
def readOp (io : Bool) (s : FsState) (fh off len : Nat) : OpOut (List Nat) :=
  match aget fh s.handles with
  | none => ⟨s, .error .StaleHandle, 0⟩
  | some h =>
    match aget h.ino s.inodes with
    | none => ⟨s, .error .StaleHandle, 0⟩
    | some i =>
      if io then ⟨s, .ok (readBytes i.content off len), 1⟩
      else ⟨s, .error .IOError, 1⟩

/-- The operations of the modelled dispatcher, with the backing-store
call outcome for the operations that issue one. -/
inductive Op
  | create (parent : Nat) (name : String)
  | openFile (ino flags : Nat)
  | release (fh : Nat)
  | unlink (parent : Nat) (name : String)
  | write (io : Bool) (fh off : Nat) (bytes : List Nat)
  | read (io : Bool) (fh off len : Nat)
deriving Repr, DecidableEq

/-- State transition of one dispatched operation. -/
def step (s : FsState) : Op → FsState
  | .create p n => (createOp s p n).state
  | .openFile i f => (openOp s i f).state
  | .release fh => (releaseOp s fh).state
  | .unlink p n => (unlinkOp s p n).state
  | .write io fh off b => (writeOp io s fh off b).state
  | .read io fh off len => (readOp io s fh off len).state

/-- The mounted state: a root directory at inode 1, no entries, no open
handles. -/
def initState : FsState :=
  { inodes := [(1, ⟨.dir, [], 1, 0⟩)], dirents := [], handles := []
    nextIno := 2, nextFh := 1 }

/-- Run a sequence of operations from a state. -/
def run (s : FsState) (ops : List Op) : FsState := ops.foldl step s

/-- Every handle in the handle table references a key present in the
inode table. -/
def HandlesLiveT (handles : List (Nat × Handle)) (inodes : List (Nat × Inode)) : Prop :=
  ∀ fh h, aget fh handles = some h → (aget h.ino inodes).isSome = true

/-- The C7 invariant: every live Handle references a live Inode. -/
def HandlesLive (s : FsState) : Prop :=
  HandlesLiveT s.handles s.inodes

theorem noHandleRefs_spec {handles : List (Nat × Handle)} {ino : Nat}
    (hall : noHandleRefs handles ino = true) {fh : Nat} {h : Handle}
    (hget : aget fh handles = some h) : h.ino ≠ ino := by
  have hmem := aget_mem hget
  have := List.all_eq_true.mp hall _ hmem
  simpa using this

theorem handlesLiveT_aset_inode {H : List (Nat × Handle)} {I : List (Nat × Inode)}
    (hl : HandlesLiveT H I) (k : Nat) (v : Inode) : HandlesLiveT H (aset k v I) := by
  intro fh h hget
  rw [aget_aset]
  split
  · rfl
  · exact hl fh h hget

theorem handlesLiveT_new_handle {H : List (Nat × Handle)} {I : List (Nat × Inode)}
    (hl : HandlesLiveT H I) (fh0 ino flags off : Nat)
    (hino : (aget ino I).isSome = true) :
    HandlesLiveT (aset fh0 ⟨ino, flags, off⟩ H) I := by
  intro fh h hget
  rw [aget_aset] at hget
  by_cases hfh : fh = fh0
  · rw [if_pos hfh] at hget
    injection hget with h2
    subst h2
    exact hino
  · rw [if_neg hfh] at hget
    exact hl fh h hget

theorem handlesLiveT_adel_handle {H : List (Nat × Handle)} {I : List (Nat × Inode)}
    (hl : HandlesLiveT H I) (k : Nat) : HandlesLiveT (adel k H) I := by
  intro fh h hget
  rw [aget_adel] at hget
  by_cases hfh : fh = k
  · rw [if_pos hfh] at hget
    exact Option.noConfusion hget
  · rw [if_neg hfh] at hget
    exact hl fh h hget

theorem handlesLiveT_adel_inode {H : List (Nat × Handle)} {I : List (Nat × Inode)}
    (hl : HandlesLiveT H I) {k : Nat} (hno : noHandleRefs H k = true) :
    HandlesLiveT H (adel k I) := by
  intro fh h hget
  rw [aget_adel]
  rw [if_neg (noHandleRefs_spec hno hget)]
  exact hl fh h hget

theorem createOp_preserves (s : FsState) (p : Nat) (n : String)
    (hl : HandlesLive s) : HandlesLive (createOp s p n).state := by
  unfold createOp
  split
  · exact hl
  · split
    · split
      · exact hl
      · exact handlesLiveT_aset_inode hl _ _
    · exact hl

theorem openOp_preserves (s : FsState) (ino flags : Nat)
    (hl : HandlesLive s) : HandlesLive (openOp s ino flags).state := by
  unfold openOp
  split
  · exact hl
  · next i hp => exact handlesLiveT_new_handle hl s.nextFh ino flags 0 (by rw [hp]; rfl)

theorem releaseOp_preserves (s : FsState) (fh : Nat)
    (hl : HandlesLive s) : HandlesLive (releaseOp s fh).state := by
  unfold releaseOp
  split
  · exact hl
  · split
    · exact handlesLiveT_adel_handle hl fh
    · split
      · next hc => exact handlesLiveT_adel_inode (handlesLiveT_adel_handle hl fh) hc.2
      · exact handlesLiveT_adel_handle hl fh

theorem unlinkOp_preserves (s : FsState) (p : Nat) (n : String)
    (hl : HandlesLive s) : HandlesLive (unlinkOp s p n).state := by
  unfold unlinkOp
  split
  · exact hl
  · split
    · exact hl
    · split
      · next hc => exact handlesLiveT_adel_inode hl hc.2
      · exact handlesLiveT_aset_inode hl _ _

theorem writeOp_preserves (io : Bool) (s : FsState) (fh off : Nat) (bytes : List Nat)
    (hl : HandlesLive s) : HandlesLive (writeOp io s fh off bytes).state := by
  unfold writeOp
  split
  · exact hl
  · split
    · exact hl
    · split
      · exact handlesLiveT_aset_inode hl _ _
      · exact hl

theorem readOp_preserves (io : Bool) (s : FsState) (fh off len : Nat)
    (hl : HandlesLive s) : HandlesLive (readOp io s fh off len).state := by
  unfold readOp
  split
  · exact hl
  · split
    · exact hl
    · split
      · exact hl
      · exact hl

theorem step_preserves (s : FsState) (op : Op) (hl : HandlesLive s) :
    HandlesLive (step s op) := by
  cases op with
  | create p n => exact createOp_preserves s p n hl
  | openFile i f => exact openOp_preserves s i f hl
  | release fh => exact releaseOp_preserves s fh hl
  | unlink p n => exact unlinkOp_preserves s p n hl
  | write io fh off b => exact writeOp_preserves io s fh off b hl
  | read io fh off len => exact readOp_preserves io s fh off len hl

theorem run_preserves (ops : List Op) (s : FsState) (hl : HandlesLive s) :
    HandlesLive (run s ops) := by
  induction ops generalizing s with
  | nil => exact hl
  | cons op t ih => exact ih (step s op) (step_preserves s op hl)

theorem initState_handlesLive : HandlesLive initState := by
  intro fh h hget
  exact Option.noConfusion hget

/-- A small concrete state: root directory inode 1, a file "a" at inode 2
with four bytes of content, opened through handle 1. -/
def sampleState : FsState :=
  { inodes := [(2, ⟨.file, [10, 11, 12, 13], 1, 0⟩), (1, ⟨.dir, [], 1, 0⟩)]
    dirents := [(1, "a", 2)]
    handles := [(1, ⟨2, 0, 0⟩)]
    nextIno := 3
    nextFh := 2 }

/-- C5 (spec-modelled): for every open handle, a `write` of a byte
sequence at an offset followed immediately by a `read` on the same handle
at the same offset with the written length returns exactly the written
bytes, and the write reports the full byte count. -/
theorem write_read_roundtrip (s : FsState) (fh off : Nat) (bytes : List Nat)
    (h : Handle) (i : Inode)
    (hh : aget fh s.handles = some h) (hi : aget h.ino s.inodes = some i) :
    (writeOp true s fh off bytes).result = .ok bytes.length ∧
    (readOp true (writeOp true s fh off bytes).state fh off bytes.length).result =
      .ok bytes := by
  constructor
  · simp [writeOp, hh, hi]
  · simp [writeOp, readOp, hh, hi, aget_aset, readBytes, writeAt_read_back]

/-- Witness for C5's theorem on `sampleState`, handle 1, offset 1,
bytes `[7, 8, 9]`. -/
theorem write_read_roundtrip_witness :
    aget 1 sampleState.handles = some ⟨2, 0, 0⟩ ∧
    aget 2 sampleState.inodes = some ⟨.file, [10, 11, 12, 13], 1, 0⟩ ∧
    (readOp true (writeOp true sampleState 1 1 [7, 8, 9]).state 1 1 3).result =
      .ok [7, 8, 9] :=
  ⟨rfl, rfl,
    (write_read_roundtrip sampleState 1 1 [7, 8, 9] ⟨2, 0, 0⟩
      ⟨.file, [10, 11, 12, 13], 1, 0⟩ rfl rfl).2⟩

/-- C6 (spec-modelled): on a valid handle, `read` at an offset at or past
the file size succeeds with the empty byte sequence (never an error) and
leaves the state unchanged; in general a read returns at most the
requested number of bytes. -/
theorem read_beyond_eof (s : FsState) (fh off len : Nat) (h : Handle) (i : Inode)
    (hh : aget fh s.handles = some h) (hi : aget h.ino s.inodes = some i)
    (hoff : i.content.length ≤ off) :
    (readOp true s fh off len).result = .ok [] ∧
    (readOp true s fh off len).state = s ∧
    ∀ s2 fh2 off2 len2 out, (readOp true s2 fh2 off2 len2).result = .ok out →
      out.length ≤ len2 := by
  refine ⟨?_, ?_, ?_⟩
  · simp [readOp, hh, hi, readBytes, List.drop_eq_nil_of_le hoff]
  · simp [readOp, hh, hi]
  · intro s2 fh2 off2 len2 out hout
    unfold readOp at hout
    split at hout
    · exact Except.noConfusion (congrArg id hout)
    · split at hout
      · exact Except.noConfusion (congrArg id hout)
      · simp at hout
        rw [← hout]
        simp [readBytes, List.length_take]

/-- Witness for C6's theorem on `sampleState`, handle 1, offset 4 (the
file size), length 10. -/
theorem read_beyond_eof_witness :
    aget 1 sampleState.handles = some ⟨2, 0, 0⟩ ∧
    aget 2 sampleState.inodes = some ⟨.file, [10, 11, 12, 13], 1, 0⟩ ∧
    ([10, 11, 12, 13] : List Nat).length ≤ 4 ∧
    (readOp true sampleState 1 4 10).result = .ok [] :=
  ⟨rfl, rfl, by decide,
    (read_beyond_eof sampleState 1 4 10 ⟨2, 0, 0⟩ ⟨.file, [10, 11, 12, 13], 1, 0⟩
      rfl rfl (by decide)).1⟩

/-- C7 (spec-modelled): in every state reachable from the mounted initial
state by any sequence of operations, every live Handle references a live
Inode — unlink and release defer inode removal past the last referencing
handle, so no operation produces an open Handle onto a freed Inode. -/
theorem reachable_handles_reference_live_inodes (ops : List Op) (fh : Nat)
    (h : Handle) (hget : aget fh (run initState ops).handles = some h) :
    (aget h.ino (run initState ops).inodes).isSome = true :=
  run_preserves ops initState initState_handlesLive fh h hget

/-- Witness for C7's theorem: create "a" under the root, open it, then
unlink it; the handle stays and its inode is still live. -/
theorem reachable_handles_reference_live_inodes_witness :
    aget 1 (run initState [Op.create 1 "a", Op.openFile 2 0, Op.unlink 1 "a"]).handles =
      some ⟨2, 0, 0⟩ ∧
    (aget 2 (run initState [Op.create 1 "a", Op.openFile 2 0, Op.unlink 1 "a"]).inodes).isSome =
      true :=
  ⟨by decide,
    reachable_handles_reference_live_inodes
      [Op.create 1 "a", Op.openFile 2 0, Op.unlink 1 "a"] 1 ⟨2, 0, 0⟩ (by decide)⟩

/-- C8 (spec-modelled): when the single backing-store call of a `write`
or `read` fails, the core surfaces IOError, issues exactly one
backing-store call (no retry), and returns the filesystem state exactly
as it was — no partial metadata commit. -/
theorem io_failure_surfaced_no_retry_no_commit (s : FsState) (fh off len : Nat)
    (bytes : List Nat) (h : Handle) (i : Inode)
    (hh : aget fh s.handles = some h) (hi : aget h.ino s.inodes = some i) :
    (writeOp false s fh off bytes).state = s ∧
    (writeOp false s fh off bytes).result = .error .IOError ∧
    (writeOp false s fh off bytes).bsCalls = 1 ∧
    (readOp false s fh off len).state = s ∧
    (readOp false s fh off len).result = .error .IOError ∧
    (readOp false s fh off len).bsCalls = 1 := by
  refine ⟨?_, ?_, ?_, ?_, ?_, ?_⟩ <;> simp [writeOp, readOp, hh, hi]

/-- Witness for C8's theorem on `sampleState`, handle 1. -/
theorem io_failure_surfaced_no_retry_no_commit_witness :
    aget 1 sampleState.handles = some ⟨2, 0, 0⟩ ∧
    aget 2 sampleState.inodes = some ⟨.file, [10, 11, 12, 13], 1, 0⟩ ∧
    (writeOp false sampleState 1 0 [7]).state = sampleState ∧
    (readOp false sampleState 1 0 5).result = .error .IOError :=
  ⟨rfl, rfl,
    (io_failure_surfaced_no_retry_no_commit sampleState 1 0 5 [7] ⟨2, 0, 0⟩
      ⟨.file, [10, 11, 12, 13], 1, 0⟩ rfl rfl).1,
    (io_failure_surfaced_no_retry_no_commit sampleState 1 0 5 [7] ⟨2, 0, 0⟩
      ⟨.file, [10, 11, 12, 13], 1, 0⟩ rfl rfl).2.2.2.2.1⟩

end Core
